import Mathlib

/-!
Shallow embedding of `src/main.py` of the play-store-data-collector service.

The service exposes two HTTP handlers, `analyze_app` (Android) and `analyze_ios_app` (iOS).
Pure helpers (`extract_package_name`, `extract_app_id`, the keyword filter of
`search_similar_apps`) are translated directly.  Every external call (the Google Play scraper
`gps_app`/`gps_search`, the `requests.get` fetches, the `AppStore(...).review()` scraper) is
modelled by an environment record whose fields give each call's outcome as data; an
`Except`-error models the call raising an exception.  Python strings are Lean `String`s;
`str.lower()` is modelled by `Char.toLower` (ASCII, matching all inputs the service handles),
and the substring test `pat in hay` by a prefix scan over the tails of `hay`.
-/

namespace AppAnalyzer

/-- Python exceptions reaching a handler.  FastAPI/Starlette `HTTPException`s carry a status
code and a detail string; every other exception is modelled by its message.  `Exc.str` models
Python `str(e)`: Starlette's `HTTPException.__str__` prints `<status>: <detail>`, and a plain
exception prints its message. -/
inductive Exc where
  | httpException (statusCode : Nat) (detail : String)
  | runtimeError (msg : String)
deriving DecidableEq, Repr

def Exc.str : Exc → String
  | .httpException s d => toString s ++ ": " ++ d
  | .runtimeError m => m

/-- One attempted match of the regex `id=([^&]+)` at the head of the list: literal `i`,`d`,`=`
followed by a maximal nonempty run of non-`&` characters (the capture group). -/
def matchIdEqAt : List Char → Option (List Char)
  | 'i' :: 'd' :: '=' :: rest =>
    let v := rest.takeWhile (fun c => c != '&')
    if v = [] then none else some v
  | _ => none

/-- One attempted match of the regex `/id(\d+)` at the head of the list: literal `/`,`i`,`d`
followed by a maximal nonempty run of decimal digits (the capture group). -/
def matchSlashIdAt : List Char → Option (List Char)
  | '/' :: 'i' :: 'd' :: rest =>
    let v := rest.takeWhile (fun c => c.isDigit)
    if v = [] then none else some v
  | _ => none

/-- Model of `re.search`: try the matcher at each position, left to right, returning the first capture. -/
def reSearch (m : List Char → Option (List Char)) : List Char → Option (List Char)
  | [] => none
  | c :: cs =>
    match m (c :: cs) with
    | some v => some v
    | none => reSearch m cs

/-- Model of `extract_package_name` (src/main.py:35-41): `re.search(r'id=([^&]+)', url)`, returning the
capture group, or raising `HTTPException(400, "Invalid Google Play Store URL")`. -/
def extract_package_name (url : String) : Except Exc String :=
  match reSearch matchIdEqAt url.toList with
  | some v => .ok (String.mk v)
  | none => .error (.httpException 400 "Invalid Google Play Store URL")

/-- Model of `extract_app_id` (src/main.py:43-49): `re.search(r'/id(\d+)', url)`, returning the capture
group, or raising `HTTPException(400, "Invalid App Store URL")`. -/
def extract_app_id (url : String) : Except Exc String :=
  match reSearch matchSlashIdAt url.toList with
  | some v => .ok (String.mk v)
  | none => .error (.httpException 400 "Invalid App Store URL")

/-- Python `s.lower()` (ASCII model, matching `Char.toLower`). -/
def pyLower (s : String) : String := String.mk (s.toList.map Char.toLower)

/-- Python `pat in hay` for strings: `pat` occurs as a contiguous substring of `hay`. -/
def pyInStr (pat hay : String) : Bool :=
  hay.toList.tails.any (fun t => pat.toList.isPrefixOf t)

/-- One entry of the iTunes search API's `results` array, as consumed by
`search_similar_apps` (src/main.py:130-154): each field holds the value of the corresponding
`app.get(...)` call with its default already applied (`trackId` additionally passed
through `str`, so an absent key yields `""`). -/
structure ItunesApp where
  trackId : String
  trackName : String
  description : String
  sellerName : String
  formattedPrice : String
  averageUserRating : String
  userRatingCount : String
  trackViewUrl : String
  primaryGenreName : String
deriving DecidableEq, Repr

/-- The `app_data` dict built at src/main.py:144-154 and appended to `similar_apps`. -/
structure AppData where
  appId : String
  title : String
  developer : String
  description : String
  price : String
  rating : String
  rating_count : String
  url : String
  category : String
deriving DecidableEq, Repr

/-- The fixed relevance keyword list (src/main.py:141). -/
def keywords : List String := ["wallet", "payment", "bank", "money", "transfer", "financial"]

/-- The five query strings built from the app name (src/main.py:98-104). -/
def search_terms (app_name : String) : List String :=
  [app_name ++ " mobile wallet", app_name ++ " payment", app_name ++ " financial",
   "mobile wallet payment", "digital wallet payment"]

def mkAppData (app_id : String) (app : ItunesApp) : AppData :=
  { appId := app_id, title := app.trackName, developer := app.sellerName,
    description := app.description, price := app.formattedPrice,
    rating := app.averageUserRating, rating_count := app.userRatingCount,
    url := app.trackViewUrl, category := app.primaryGenreName }

/-- The keyword check at src/main.py:138-143: both `title` and `description` are lowered once
when bound and again inside the `any(...)` condition, exactly as in the source. -/
def isRelevant (app : ItunesApp) : Bool :=
  let title := pyLower app.trackName
  let description := pyLower app.description
  keywords.any (fun keyword => pyInStr keyword (pyLower title) || pyInStr keyword (pyLower description))

/-- The outcome of one `requests.get` on the iTunes search endpoint for one query:
`Except.error` models the request (or `raise_for_status`/`.json()`) raising; `Except.ok none`
models a JSON body without a `results` key; `Except.ok (some items)` gives the `results`
array, where an `Except.error ()` item models one whose processing raises (caught by the
per-item `try` at src/main.py:131-159). -/
abbrev QueryOutcome := Except String (Option (List (Except Unit ItunesApp)))

/-- The per-item loop body of `search_similar_apps` (src/main.py:130-159), folded over the
`results` array: state is the accumulated `similar_apps` list and the `seen_app_ids` set
(modelled as a list). -/
def processItems (exclude_app_id : String) :
    List (Except Unit ItunesApp) → List AppData → List String → List AppData × List String
  | [], acc, seen => (acc, seen)
  | .error _ :: rest, acc, seen => processItems exclude_app_id rest acc seen
  | .ok app :: rest, acc, seen =>
    let app_id := app.trackId
    if app_id ≠ "" ∧ app_id ≠ exclude_app_id ∧ app_id ∉ seen ∧ acc.length < 10 then
      if isRelevant app then
        processItems exclude_app_id rest (acc ++ [mkAppData app_id app]) (app_id :: seen)
      else
        processItems exclude_app_id rest acc seen
    else
      processItems exclude_app_id rest acc seen

/-- The `for search_term in search_terms` loop (src/main.py:108-159).  The whole loop sits in
one `try` (src/main.py:93-162), so a failing query fetch aborts the loop and the function
returns the candidates collected so far. -/
def searchLoop (fetch : String → QueryOutcome) (exclude_app_id : String) :
    List String → List AppData → List String → List AppData
  | [], acc, _ => acc
  | t :: ts, acc, seen =>
    if acc.length ≥ 10 then acc
    else
      match fetch t with
      | .error _ => acc
      | .ok none => searchLoop fetch exclude_app_id ts acc seen
      | .ok (some items) =>
        let r := processItems exclude_app_id items acc seen
        searchLoop fetch exclude_app_id ts r.1 r.2

/-- Model of `search_similar_apps` (src/main.py:90-164), with the iTunes endpoint's behaviour supplied
by `fetch`. -/
def search_similar_apps (fetch : String → QueryOutcome) (app_name exclude_app_id : String) :
    List AppData :=
  searchLoop fetch exclude_app_id (search_terms app_name) [] []

/-- Outcome of the `requests.get` + BeautifulSoup parse of the storefront page inside
`get_app_store_data` (src/main.py:61-76): `failure` models the fetch or parse raising;
`page` gives the text of each element the code looks up (`none` when `soup.find` returns
no element). -/
inductive FetchResult where
  | failure (msg : String)
  | page (h1 h2 sectionDescription weRatingCount price : Option String)
deriving DecidableEq, Repr

/-- Python `s.strip()`. -/
def pyStrip (s : String) : String := s.trim

/-- The dict returned by a successful `get_app_store_data` (src/main.py:78-85). -/
structure StorePageData where
  title : String
  developer : String
  description : String
  rating : String
  price : String
  url : String
deriving DecidableEq, Repr

/-- Model of `get_app_store_data` (src/main.py:51-88): on any failure the `except` returns `{}`
(modelled `none`); on success every key is present, with `""`/`"0"`/`"Free"` defaults for
missing elements. -/
def get_app_store_data (app_id : String) (fetched : FetchResult) : Option StorePageData :=
  let url := "https://apps.apple.com/us/app/id" ++ app_id
  match fetched with
  | .failure _ => none
  | .page h1 h2 sectionDescription weRatingCount price =>
    some { title := (h1.map pyStrip).getD "",
           developer := (h2.map pyStrip).getD "",
           description := (sectionDescription.map pyStrip).getD "",
           rating := (weRatingCount.map pyStrip).getD "0",
           price := (price.map pyStrip).getD "Free",
           url := url }

/-- Python `d.get(key, default)` where `d` is either the empty dict (`none`) or the fully
populated dict returned by `get_app_store_data`. -/
def dictGetStr (d : Option StorePageData) (f : StorePageData → String) (default : String) :
    String :=
  match d with
  | none => default
  | some r => f r

/-- A review object from the `app_store_scraper` dependency; opaque, passed through. -/
abbrev Review := String

/-- Environment of one `/analyze-ios-app` request: the storefront page fetch outcome, whether
`AppStore(...)` construction raises, the outcome of `target_app_scraper.review()` (on success,
the resulting `reviews` attribute), and the iTunes search endpoint. -/
structure IosEnv where
  page : FetchResult
  scraperInit : Except String Unit
  reviewFetch : Except String (List Review)
  fetch : String → QueryOutcome

structure AppStoreAnalysisRequest where
  ios_app_name : String
  url : String
deriving DecidableEq, Repr

/-- The `target_app` dict assembled at src/main.py:231-240. -/
structure IosTargetApp where
  appId : String
  title : String
  description : String
  developer : String
  price : String
  rating : String
  url : String
  reviews : List Review
deriving DecidableEq, Repr

structure IosResponse where
  target_app : IosTargetApp
  similar_apps : List AppData
deriving DecidableEq, Repr

/-- Model of `analyze_ios_app` (src/main.py:209-255).  The handler's own
`except Exception` (line 253) catches every exception raised in the body — including the
status-400 `HTTPException` from `extract_app_id` and the status-500 `HTTPException` re-raised
at line 243 — and re-raises `HTTPException(500, str(e))`, so every error leaves as status 500. -/
def analyze_ios_app (env : IosEnv) (req : AppStoreAnalysisRequest) :
    Except (Nat × String) IosResponse :=
  match extract_app_id req.url with
  | .error e => .error (500, e.str)
  | .ok app_id =>
    let app_data := get_app_store_data app_id env.page
    match env.scraperInit with
    | .error m =>
      .error (500, (Exc.httpException 500 ("Error scraping target app: " ++ m)).str)
    | .ok _ =>
      let reviews :=
        match env.reviewFetch with
        | .ok rs => rs.take 10
        | .error _ => []
      let target_app : IosTargetApp :=
        { appId := app_id,
          title := dictGetStr app_data (fun r => r.title) req.ios_app_name,
          description := dictGetStr app_data (fun r => r.description) "",
          developer := dictGetStr app_data (fun r => r.developer) "",
          price := dictGetStr app_data (fun r => r.price) "",
          rating := dictGetStr app_data (fun r => r.rating) "",
          url := dictGetStr app_data (fun r => r.url) "",
          reviews := reviews }
      let similar_apps := search_similar_apps env.fetch req.ios_app_name app_id
      .ok { target_app := target_app, similar_apps := similar_apps }

/-- A record returned by the Google Play scraper's `app(...)`; opaque, passed through. -/
structure AndroidRecord where
  raw : String
deriving DecidableEq, Repr

/-- One hit returned by the Google Play scraper's `search(...)`; the handler only reads
its `appId` key. -/
structure SearchHit where
  appId : String
deriving DecidableEq, Repr

/-- Environment of one `/analyze-app` request: `gpsApp` is `google_play_scraper.app` (keyed by
package id), `gpsSearch` is `google_play_scraper.search` (keyed by query and `n_hits`). -/
structure AndroidEnv where
  gpsApp : String → Except String AndroidRecord
  gpsSearch : String → Nat → Except String (List SearchHit)

structure AppAnalysisRequest where
  android_app_name : String
  url : String
deriving DecidableEq, Repr

structure AndroidResponse where
  target_app : AndroidRecord
  similar_apps : List AndroidRecord
deriving DecidableEq, Repr

/-- Model of `analyze_app` (src/main.py:166-207).  As in the iOS handler, the blanket
`except Exception` (line 205) converts every exception — the parser's 400 `HTTPException`
included — into `HTTPException(500, str(e))`. -/
def analyze_app (env : AndroidEnv) (req : AppAnalysisRequest) :
    Except (Nat × String) AndroidResponse :=
  match extract_package_name req.url with
  | .error e => .error (500, e.str)
  | .ok package_name =>
    match env.gpsApp package_name with
    | .error m => .error (500, (Exc.runtimeError m).str)
    | .ok target_app =>
      match env.gpsSearch req.android_app_name 10 with
      | .error m => .error (500, (Exc.runtimeError m).str)
      | .ok similar_apps =>
        let detailed_similar_apps := similar_apps.foldl
          (fun acc app_data =>
            match env.gpsApp app_data.appId with
            | .ok detailed_app => acc ++ [detailed_app]
            | .error _ => acc) []
        .ok { target_app := target_app, similar_apps := detailed_similar_apps }

/-! ### Claim antecedents and invariants -/

/-- The antecedent of claim C3, as stated: `url` contains a substring `id=<x>` with `x`
nonempty, free of `&`, and terminated by `&` or the end of the string. -/
def idEqOccurs (url x : String) : Prop :=
  x ≠ "" ∧ (∀ c ∈ x.toList, c ≠ '&') ∧
  ∃ pre suf : String, url = pre ++ "id=" ++ x ++ suf ∧ (suf = "" ∨ ∃ r, suf = "&" ++ r)

/-- The antecedent of claim C4, as stated: `url` contains a substring `/id` followed by the
nonempty digit string `x`. -/
def slashIdOccurs (url x : String) : Prop :=
  x ≠ "" ∧ (∀ c ∈ x.toList, c.isDigit = true) ∧
  ∃ pre suf : String, url = pre ++ "/id" ++ x ++ suf

/-- Invariant carried by the `(similar_apps, seen_app_ids)` state of the search loop: every
collected candidate's identifier is in the seen set, the identifiers are pairwise distinct,
none equals the excluded target identifier, and every candidate passed the keyword filter. -/
def SearchInv (ex : String) (acc : List AppData) (seen : List String) : Prop :=
  (∀ a ∈ acc, a.appId ∈ seen) ∧
  (acc.map (fun a => a.appId)).Nodup ∧
  (∀ a ∈ acc, a.appId ≠ ex) ∧
  (∀ a ∈ acc, ∃ kw ∈ keywords, pyInStr kw (pyLower a.title) = true ∨
     pyInStr kw (pyLower a.description) = true)

/-! ### Concrete sample data used to instantiate the theorems -/

/-- A search result that passes the keyword filter (its title contains "wallet"). -/
def walletApp : ItunesApp :=
  { trackId := "7", trackName := "Acme Wallet", description := "Send money fast",
    sellerName := "Acme", formattedPrice := "Free", averageUserRating := "4.5",
    userRatingCount := "120", trackViewUrl := "https://apps.apple.com/us/app/id7",
    primaryGenreName := "Finance" }

/-- iTunes endpoint whose first query raises and whose other queries return `walletApp`. -/
def queryFailEnv (t : String) : QueryOutcome :=
  if t = "X mobile wallet" then .error "connection reset" else .ok (some [.ok walletApp])

/-- Like `queryFailEnv`, but the first query merely returns a body without `results`. -/
def querySkipEnv (t : String) : QueryOutcome :=
  if t = "X mobile wallet" then .ok none else .ok (some [.ok walletApp])

def sampleIosEnv : IosEnv :=
  { page := .failure "connection reset", scraperInit := .ok (), reviewFetch := .ok [],
    fetch := fun _ => .ok (some [.ok walletApp]) }

def sampleIosReq : AppStoreAnalysisRequest :=
  { ios_app_name := "Chase Mobile",
    url := "https://apps.apple.com/us/app/chase-mobile/id298867247" }

/-- The response `analyze_ios_app sampleIosEnv sampleIosReq` computes to. -/
def sampleIosResp : IosResponse :=
  { target_app := { appId := "298867247", title := "Chase Mobile", description := "",
                    developer := "", price := "", rating := "", url := "", reviews := [] },
    similar_apps := [mkAppData "7" walletApp] }

/-- iOS environment whose review fetch raises. -/
def reviewFailEnv : IosEnv :=
  { page := .failure "connection reset", scraperInit := .ok (),
    reviewFetch := .error "too many requests", fetch := fun _ => .error "offline" }

def manyReviews : List Review :=
  ["r1", "r2", "r3", "r4", "r5", "r6", "r7", "r8", "r9", "r10", "r11", "r12"]

/-- iOS environment whose review fetch returns twelve reviews. -/
def reviewRichEnv : IosEnv :=
  { page := .failure "connection reset", scraperInit := .ok (),
    reviewFetch := .ok manyReviews, fetch := fun _ => .error "offline" }

/-- iOS environment whose storefront page fetch succeeds but whose page has no `h1`. -/
def missingH1Env : IosEnv :=
  { page := .page none (some "Acme Inc") (some "a description") none none,
    scraperInit := .ok (), reviewFetch := .ok [], fetch := fun _ => .error "offline" }

def sampleAndroidEnv : AndroidEnv :=
  { gpsApp := fun pkg => .ok { raw := pkg }, gpsSearch := fun _ _ => .ok [] }

def sampleAndroidReq : AppAnalysisRequest :=
  { android_app_name := "Chase Mobile",
    url := "https://play.google.com/store/apps/details?id=com.chase.sig.android" }

/-- The response `analyze_app sampleAndroidEnv sampleAndroidReq` computes to. -/
def sampleAndroidResp : AndroidResponse :=
  { target_app := { raw := "com.chase.sig.android" }, similar_apps := [] }

/-- Android environment whose target app lookup raises. -/
def failingAndroidEnv : AndroidEnv :=
  { gpsApp := fun _ => .error "App not found(404)", gpsSearch := fun _ _ => .ok [] }

/-! ### Helper lemmas -/

theorem reSearch_cons_of_match {m : List Char → Option (List Char)} {c : Char}
    {cs v : List Char} (h : m (c :: cs) = some v) : reSearch m (c :: cs) = some v := by
  show (match m (c :: cs) with | some v => some v | none => reSearch m cs) = some v
  rw [h]

theorem reSearch_cons_of_none {m : List Char → Option (List Char)} {c : Char}
    {cs : List Char} (h : m (c :: cs) = none) : reSearch m (c :: cs) = reSearch m cs := by
  show (match m (c :: cs) with | some v => some v | none => reSearch m cs) = reSearch m cs
  rw [h]

theorem reSearch_of_none (m : List Char → Option (List Char)) :
    ∀ l : List Char, (∀ i, m (l.drop i) = none) → reSearch m l = none := by
  intro l
  induction l with
  | nil => intro _; rfl
  | cons c cs ih =>
    intro h
    rw [reSearch_cons_of_none (h 0)]
    exact ih (fun i => h (i + 1))

theorem reSearch_append (m : List Char → Option (List Char)) :
    ∀ (p l : List Char), (∀ i, i < p.length → m ((p ++ l).drop i) = none) →
      reSearch m (p ++ l) = reSearch m l := by
  intro p
  induction p with
  | nil => intro l _; rfl
  | cons c p' ih =>
    intro l h
    have h0 : m (c :: (p' ++ l)) = none := h 0 (by simp)
    rw [List.cons_append, reSearch_cons_of_none h0]
    exact ih l (fun i hi => h (i + 1) (by simpa using Nat.succ_lt_succ hi))

theorem takeWhile_append_of_all (p : Char → Bool) :
    ∀ (xs ys : List Char), (∀ c ∈ xs, p c = true) →
      (ys = [] ∨ ∃ c t, ys = c :: t ∧ p c = false) →
      (xs ++ ys).takeWhile p = xs := by
  intro xs
  induction xs with
  | nil =>
    intro ys _ hys
    rcases hys with rfl | ⟨c, t, rfl, hc⟩
    · rfl
    · simp [List.takeWhile_cons, hc]
  | cons x xs' ih =>
    intro ys hxs hys
    have hx : p x = true := hxs x (by simp)
    rw [List.cons_append, List.takeWhile_cons_of_pos hx,
      ih ys (fun c hc => hxs c (by simp [hc])) hys]

theorem toList_ne_nil_of_ne_empty {x : String} (hx : x ≠ "") : x.toList ≠ [] := by
  intro h
  apply hx
  cases x with
  | mk d =>
    cases h
    rfl

theorem matchAt_none_of_all_lt {m : List Char → Option (List Char)} (hm : m [] = none)
    (l : List Char) (h : ∀ i, i < l.length → m (l.drop i) = none) :
    ∀ i, m (l.drop i) = none := by
  intro i
  by_cases hi : i < l.length
  · exact h i hi
  · rw [List.drop_eq_nil_of_le (by omega)]
    exact hm

/-! ### C3: the Android URL parser -/

/-- C3 counterexample: the URL `"id=a&id=b"` contains the substring `id=b` (nonempty value
terminated by the end of the string), yet `extract_package_name` does not return `"b"` —
`re.search` returns the first match, `"a"`. -/
theorem C3_counterexample :
    idEqOccurs "id=a&id=b" "b" ∧ extract_package_name "id=a&id=b" ≠ Except.ok "b" := by
  refine ⟨⟨by decide, by decide, "id=a&", "", by decide, Or.inl rfl⟩, ?_⟩
  intro h
  rw [show extract_package_name "id=a&id=b" = Except.ok "a" from rfl] at h
  injection h with h
  exact absurd h (by decide)

/-- C3 (amended): for every URL of the form `pre ++ "id=" ++ x ++ suf` where `x` is a nonempty
`&`-free value terminated by `&` or the end of the string and where no earlier position of the
URL matches `id=<nonempty value>`, the Android parser returns exactly `x` (no other validation
of scheme or host is performed); and for every URL in which no position matches, it raises the
400-class `HTTPException` with detail "Invalid Google Play Store URL". -/
theorem C3_first_match (url x : String) :
    ((∃ pre suf : String,
        url = pre ++ "id=" ++ x ++ suf ∧ x ≠ "" ∧ (∀ c ∈ x.toList, c ≠ '&') ∧
        (suf = "" ∨ ∃ r, suf = "&" ++ r) ∧
        (∀ i, i < pre.toList.length → matchIdEqAt (url.toList.drop i) = none)) →
      extract_package_name url = .ok x) ∧
    ((∀ i, matchIdEqAt (url.toList.drop i) = none) →
      extract_package_name url = .error (.httpException 400 "Invalid Google Play Store URL")) := by
  constructor
  · rintro ⟨pre, suf, rfl, hx, hxamp, hsuf, hpre⟩
    unfold extract_package_name
    have hlist : (pre ++ "id=" ++ x ++ suf).toList
        = pre.toList ++ ('i' :: 'd' :: '=' :: (x.toList ++ suf.toList)) := by
      show (pre ++ "id=" ++ x ++ suf).data
        = pre.data ++ ('i' :: 'd' :: '=' :: (x.data ++ suf.data))
      simp [String.data_append]
    rw [hlist] at hpre ⊢
    rw [reSearch_append matchIdEqAt pre.toList _ hpre]
    have htw : (x.toList ++ suf.toList).takeWhile (fun c => c != '&') = x.toList := by
      apply takeWhile_append_of_all
      · intro c hc
        simpa using hxamp c hc
      · rcases hsuf with rfl | ⟨r, rfl⟩
        · left; rfl
        · right
          refine ⟨'&', r.toList, ?_, by decide⟩
          show ("&" ++ r).data = '&' :: r.data
          simp [String.data_append]
    have hmatch : matchIdEqAt ('i' :: 'd' :: '=' :: (x.toList ++ suf.toList))
        = some x.toList := by
      show (let v := (x.toList ++ suf.toList).takeWhile (fun c => c != '&');
            if v = [] then none else some v) = some x.toList
      simp only [htw]
      rw [if_neg (toList_ne_nil_of_ne_empty hx)]
    rw [reSearch_cons_of_match hmatch]
    rfl
  · intro h
    unfold extract_package_name
    rw [reSearch_of_none _ _ h]

/-- C3 witness: the first-match theorem applied at concrete URLs: a URL with a single `id=`
occurrence (preceded by unvalidated junk, terminated by `&`) returns its value, and a URL with
no occurrence yields the 400-class error. -/
theorem C3_witness :
    extract_package_name "x?id=com.chase.sig.android&hl=en" = .ok "com.chase.sig.android" ∧
    extract_package_name "https://play.google.com/store/apps/details"
      = .error (.httpException 400 "Invalid Google Play Store URL") := by
  constructor
  · exact (C3_first_match "x?id=com.chase.sig.android&hl=en" "com.chase.sig.android").1
      ⟨"x?", "&hl=en", by decide, by decide, by decide, Or.inr ⟨"hl=en", by decide⟩, by decide⟩
  · exact (C3_first_match "https://play.google.com/store/apps/details" "").2
      (matchAt_none_of_all_lt rfl _ (by decide))

/-! ### C4: the iOS URL parser -/

/-- C4 counterexample: the URL `"/id1/id2"` contains the substring `/id` followed by the
digit string `"2"`, yet `extract_app_id` does not return `"2"` — `re.search` returns the
first match, `"1"`. -/
theorem C4_counterexample :
    slashIdOccurs "/id1/id2" "2" ∧ extract_app_id "/id1/id2" ≠ Except.ok "2" := by
  refine ⟨⟨by decide, by decide, "/id1", "", by decide⟩, ?_⟩
  intro h
  rw [show extract_app_id "/id1/id2" = Except.ok "1" from rfl] at h
  injection h with h
  exact absurd h (by decide)

/-- C4 (amended): for every URL of the form `pre ++ "/id" ++ x ++ suf` where `x` is a nonempty
digit string not followed by a further digit and where no earlier position of the URL matches
`/id<digit>`, the iOS parser returns exactly `x`; and for every URL in which no position
matches, it raises the 400-class `HTTPException` with detail "Invalid App Store URL". -/
theorem C4_first_match (url x : String) :
    ((∃ pre suf : String,
        url = pre ++ "/id" ++ x ++ suf ∧ x ≠ "" ∧ (∀ c ∈ x.toList, c.isDigit = true) ∧
        (suf = "" ∨ ∃ c r, suf.toList = c :: r ∧ c.isDigit = false) ∧
        (∀ i, i < pre.toList.length → matchSlashIdAt (url.toList.drop i) = none)) →
      extract_app_id url = .ok x) ∧
    ((∀ i, matchSlashIdAt (url.toList.drop i) = none) →
      extract_app_id url = .error (.httpException 400 "Invalid App Store URL")) := by
  constructor
  · rintro ⟨pre, suf, rfl, hx, hdig, hsuf, hpre⟩
    unfold extract_app_id
    have hlist : (pre ++ "/id" ++ x ++ suf).toList
        = pre.toList ++ ('/' :: 'i' :: 'd' :: (x.toList ++ suf.toList)) := by
      show (pre ++ "/id" ++ x ++ suf).data
        = pre.data ++ ('/' :: 'i' :: 'd' :: (x.data ++ suf.data))
      simp [String.data_append]
    rw [hlist] at hpre ⊢
    rw [reSearch_append matchSlashIdAt pre.toList _ hpre]
    have htw : (x.toList ++ suf.toList).takeWhile (fun c => c.isDigit) = x.toList := by
      apply takeWhile_append_of_all
      · exact hdig
      · rcases hsuf with rfl | ⟨c, r, hr, hc⟩
        · left; rfl
        · right; exact ⟨c, r, hr, hc⟩
    have hmatch : matchSlashIdAt ('/' :: 'i' :: 'd' :: (x.toList ++ suf.toList))
        = some x.toList := by
      show (let v := (x.toList ++ suf.toList).takeWhile (fun c => c.isDigit);
            if v = [] then none else some v) = some x.toList
      simp only [htw]
      rw [if_neg (toList_ne_nil_of_ne_empty hx)]
    rw [reSearch_cons_of_match hmatch]
    rfl
  · intro h
    unfold extract_app_id
    rw [reSearch_of_none _ _ h]

/-- C4 witness: the first-match theorem applied at concrete URLs: the spec's own example URL
returns `"298867247"`, and a URL with no `/id<digit>` substring yields the 400-class error. -/
theorem C4_witness :
    extract_app_id "https://apps.apple.com/us/app/chase-mobile/id298867247"
      = .ok "298867247" ∧
    extract_app_id "https://play.google.com/store"
      = .error (.httpException 400 "Invalid App Store URL") := by
  constructor
  · exact (C4_first_match "https://apps.apple.com/us/app/chase-mobile/id298867247"
      "298867247").1
      ⟨"https://apps.apple.com/us/app/chase-mobile", "", by decide, by decide, by decide,
        Or.inl rfl, by decide⟩
  · exact (C4_first_match "https://play.google.com/store" "").2
      (matchAt_none_of_all_lt rfl _ (by decide))

/-! ### Lowercasing is idempotent (ASCII), bridging the double `.lower()` in the source -/

theorem char_toNat_ofNat (n : Nat) (h : n.isValidChar) : (Char.ofNat n).toNat = n := by
  unfold Char.ofNat
  rw [dif_pos h]
  rfl

theorem toLower_toLower (c : Char) : c.toLower.toLower = c.toLower := by
  have hdef : ∀ d : Char,
      d.toLower = if d.toNat ≥ 65 ∧ d.toNat ≤ 90 then Char.ofNat (d.toNat + 32) else d :=
    fun _ => rfl
  by_cases h : c.toNat ≥ 65 ∧ c.toNat ≤ 90
  · rw [hdef c, if_pos h]
    have hv : (Char.ofNat (c.toNat + 32)).toNat = c.toNat + 32 :=
      char_toNat_ofNat _ (Or.inl (by omega))
    rw [hdef (Char.ofNat (c.toNat + 32)), hv, if_neg (by omega)]
  · rw [hdef c, if_neg h, hdef c, if_neg h]

theorem pyLower_pyLower (s : String) : pyLower (pyLower s) = pyLower s := by
  show String.mk ((s.toList.map Char.toLower).map Char.toLower)
    = String.mk (s.toList.map Char.toLower)
  rw [List.map_map]
  exact congrArg String.mk (List.map_congr_left fun c _ => toLower_toLower c)

/-- Any candidate passing the keyword check at src/main.py:143 has one of the fixed keywords
as a substring of its lowercased title or lowercased description. -/
theorem isRelevant_spec {app : ItunesApp} (h : isRelevant app = true) :
    ∃ kw ∈ keywords, pyInStr kw (pyLower app.trackName) = true ∨
      pyInStr kw (pyLower app.description) = true := by
  unfold isRelevant at h
  rw [List.any_eq_true] at h
  obtain ⟨kw, hkw, hp⟩ := h
  rw [Bool.or_eq_true, pyLower_pyLower, pyLower_pyLower] at hp
  exact ⟨kw, hkw, hp⟩

/-! ### Bounds and invariants of the iOS similar-app search -/

theorem processItems_length_le (ex : String) :
    ∀ (items : List (Except Unit ItunesApp)) (acc : List AppData) (seen : List String),
      acc.length ≤ 10 → (processItems ex items acc seen).1.length ≤ 10 := by
  intro items
  induction items with
  | nil => exact fun _ _ h => h
  | cons it rest ih =>
    intro acc seen h
    cases it with
    | error e => exact ih acc seen h
    | ok app =>
      simp only [processItems]
      split
      · rename_i hguard
        split
        · apply ih
          have hlt : acc.length < 10 := hguard.2.2.2
          simp only [List.length_append, List.length_cons, List.length_nil]
          omega
        · exact ih acc seen h
      · exact ih acc seen h

theorem searchLoop_length_le (fetch : String → QueryOutcome) (ex : String) :
    ∀ (ts : List String) (acc : List AppData) (seen : List String),
      acc.length ≤ 10 → (searchLoop fetch ex ts acc seen).length ≤ 10 := by
  intro ts
  induction ts with
  | nil => exact fun _ _ h => h
  | cons t ts' ih =>
    intro acc seen h
    simp only [searchLoop]
    split
    · exact h
    · cases hf : fetch t with
      | error e => exact h
      | ok o =>
        cases o with
        | none => exact ih acc seen h
        | some items => exact ih _ _ (processItems_length_le ex items acc seen h)

theorem search_similar_apps_length_le (fetch : String → QueryOutcome)
    (app_name exclude_app_id : String) :
    (search_similar_apps fetch app_name exclude_app_id).length ≤ 10 :=
  searchLoop_length_le fetch exclude_app_id _ [] [] (by simp)

theorem processItems_inv (ex : String) :
    ∀ (items : List (Except Unit ItunesApp)) (acc : List AppData) (seen : List String),
      SearchInv ex acc seen →
      SearchInv ex (processItems ex items acc seen).1 (processItems ex items acc seen).2 := by
  intro items
  induction items with
  | nil => exact fun _ _ h => h
  | cons it rest ih =>
    intro acc seen h
    cases it with
    | error e => exact ih acc seen h
    | ok app =>
      simp only [processItems]
      split
      · rename_i hguard
        split
        · rename_i hrel
          apply ih
          obtain ⟨hsub, hnd, hex, hrelv⟩ := h
          obtain ⟨hne, hnex, hnseen, hlen⟩ := hguard
          refine ⟨?_, ?_, ?_, ?_⟩
          · intro a ha
            rcases List.mem_append.1 ha with ha | ha
            · exact List.mem_cons_of_mem _ (hsub a ha)
            · rw [List.mem_singleton.1 ha]
              exact List.mem_cons_self _ _
          · rw [List.map_append, List.nodup_append]
            refine ⟨hnd, by simp, ?_⟩
            intro b hb1 hb2
            rw [List.map_singleton, List.mem_singleton] at hb2
            obtain ⟨a, ha, hab⟩ := List.mem_map.1 hb1
            have hmem : a.appId ∈ seen := hsub a ha
            rw [hab, hb2] at hmem
            exact hnseen hmem
          · intro a ha
            rcases List.mem_append.1 ha with ha | ha
            · exact hex a ha
            · rw [List.mem_singleton.1 ha]
              exact hnex
          · intro a ha
            rcases List.mem_append.1 ha with ha | ha
            · exact hrelv a ha
            · rw [List.mem_singleton.1 ha]
              exact isRelevant_spec hrel
        · exact ih acc seen h
      · exact ih acc seen h

theorem searchLoop_inv (fetch : String → QueryOutcome) (ex : String) :
    ∀ (ts : List String) (acc : List AppData) (seen : List String),
      SearchInv ex acc seen →
      ∃ s2, SearchInv ex (searchLoop fetch ex ts acc seen) s2 := by
  intro ts
  induction ts with
  | nil => exact fun _ seen h => ⟨seen, h⟩
  | cons t ts' ih =>
    intro acc seen h
    simp only [searchLoop]
    split
    · exact ⟨seen, h⟩
    · cases hf : fetch t with
      | error e => exact ⟨seen, h⟩
      | ok o =>
        cases o with
        | none => exact ih acc seen h
        | some items => exact ih _ _ (processItems_inv ex items acc seen h)

theorem search_similar_apps_inv (fetch : String → QueryOutcome) (app_name ex : String) :
    ∃ s2, SearchInv ex (search_similar_apps fetch app_name ex) s2 :=
  searchLoop_inv fetch ex (search_terms app_name) [] [] ⟨by simp, by simp, by simp, by simp⟩

/-- Destructor for a successful `/analyze-ios-app` request: the URL parse succeeded, and the
response's `similar_apps` is exactly the output of `search_similar_apps` with the extracted
identifier excluded. -/
theorem analyze_ios_app_ok {env : IosEnv} {req : AppStoreAnalysisRequest} {resp : IosResponse}
    (h : analyze_ios_app env req = .ok resp) :
    ∃ tid, extract_app_id req.url = .ok tid ∧
      resp.similar_apps = search_similar_apps env.fetch req.ios_app_name tid := by
  unfold analyze_ios_app at h
  cases hx : extract_app_id req.url with
  | error e => rw [hx] at h; exact absurd h (by simp)
  | ok tid =>
    rw [hx] at h
    cases hs : env.scraperInit with
    | error m => rw [hs] at h; exact absurd h (by simp)
    | ok u =>
      rw [hs] at h
      simp only [Except.ok.injEq] at h
      exact ⟨tid, rfl, by rw [← h]⟩

/-- The Android per-hit enrichment loop (src/main.py:188-198) adds at most one record per
search hit (failed detail lookups are dropped), so its output is no longer than
`acc ++ hits`. -/
theorem foldl_detail_length_le (g : String → Except String AndroidRecord) :
    ∀ (hits : List SearchHit) (acc : List AndroidRecord),
      (hits.foldl (fun acc app_data =>
        match g app_data.appId with
        | .ok detailed_app => acc ++ [detailed_app]
        | .error _ => acc) acc).length ≤ acc.length + hits.length := by
  intro hits
  induction hits with
  | nil => intro acc; simp
  | cons hhit rest ih =>
    intro acc
    rw [List.foldl_cons]
    cases hg : g hhit.appId with
    | ok d =>
      refine le_trans (ih (acc ++ [d])) ?_
      simp only [List.length_append, List.length_cons, List.length_nil]
      omega
    | error m =>
      refine le_trans (ih acc) ?_
      simp only [List.length_cons]
      omega

/-! ### C1: error statuses of the two endpoints -/

/-- C1 (evaluation at the failing inputs): a request whose URL lacks the platform identifier
pattern is answered with HTTP status 500, not 400 — the 400 `HTTPException` raised by the
parser is caught by the handler's blanket `except Exception` and re-raised as
`HTTPException(500, str(e))` — while an unrecoverable target-fetch failure does surface as
HTTP 500 with the raw error string as message. -/
theorem C1_invalid_url_yields_500 :
    analyze_app sampleAndroidEnv
      { android_app_name := "Chase Mobile", url := "https://play.google.com/store/apps/details" }
      = .error (500, "400: Invalid Google Play Store URL") ∧
    analyze_ios_app sampleIosEnv
      { ios_app_name := "Chase Mobile", url := "https://apps.apple.com/us/app/chase-mobile" }
      = .error (500, "400: Invalid App Store URL") ∧
    analyze_app failingAndroidEnv sampleAndroidReq
      = .error (500, "App not found(404)") :=
  ⟨rfl, rfl, rfl⟩

/-! ### C2: failure policy of the iOS similar-app search -/

/-- C2 counterexample: a failing first query is NOT skipped — under `queryFailEnv` (first
query raises, later queries return a matching wallet app) the search returns `[]`, whereas
under `querySkipEnv` (identical except the first query merely lacks `results`) the later
queries contribute; and the partial result on failure is whatever was collected so far, not
necessarily an empty list. -/
theorem C2_counterexample :
    search_similar_apps queryFailEnv "X" "0" = [] ∧
    search_similar_apps querySkipEnv "X" "0" = [mkAppData "7" walletApp] :=
  ⟨rfl, rfl⟩

/-- C2 (amended): a per-ITEM processing failure is logged and skipped and the remaining items
are still processed (removing the failing item does not change the outcome), but a per-QUERY
failure is caught only by the outer `try` of `search_similar_apps`, which aborts the
remaining queries and returns the candidates collected so far; in particular a failure of the
very first query yields an empty similar-apps list, and the search never raises, so it never
fails the request. -/
theorem C2_failure_policy (fetch : String → QueryOutcome) (name ex e : String)
    (xs ys : List (Except Unit ItunesApp)) (acc : List AppData) (seen : List String)
    (t : String) (ts : List String) :
    processItems ex (xs ++ Except.error () :: ys) acc seen
      = processItems ex (xs ++ ys) acc seen ∧
    (fetch t = .error e → searchLoop fetch ex (t :: ts) acc seen = acc) ∧
    (fetch (name ++ " mobile wallet") = .error e →
      search_similar_apps fetch name ex = []) := by
  refine ⟨?_, ?_, ?_⟩
  · induction xs generalizing acc seen with
    | nil => rfl
    | cons it rest ih =>
      cases it with
      | error u => exact ih acc seen
      | ok app =>
        simp only [List.cons_append, processItems]
        split_ifs <;> exact ih _ _
  · intro hf
    simp only [searchLoop]
    split
    · rfl
    · rw [hf]
  · intro hf
    unfold search_similar_apps search_terms
    simp only [searchLoop]
    rw [if_neg (by decide), hf]

/-- C2 witness: the amended policy applied at concrete inputs. -/
theorem C2_witness :
    processItems "0" ([Except.ok walletApp] ++ Except.error () :: [Except.ok walletApp]) [] []
      = processItems "0" ([Except.ok walletApp] ++ [Except.ok walletApp]) [] [] ∧
    searchLoop queryFailEnv "0" ("X mobile wallet" :: ["X payment"]) [] [] = [] ∧
    search_similar_apps queryFailEnv "X" "0" = [] := by
  obtain ⟨h1, h2, h3⟩ := C2_failure_policy queryFailEnv "X" "0" "connection reset"
    [Except.ok walletApp] [Except.ok walletApp] [] [] "X mobile wallet" ["X payment"]
  exact ⟨h1, h2 rfl, h3 rfl⟩

/-! ### C5: at most ten similar apps -/

/-- C5: every successful response of either endpoint carries at most 10 similar apps: the iOS
search stops accepting candidates at 10 across all queries, and the Android flow requests at
most 10 search hits (`hhits`: the search dependency honours its `n_hits` argument) and drops
candidates whose detail lookup fails. -/
theorem C5_similar_le_ten (ienv : IosEnv) (ireq : AppStoreAnalysisRequest)
    (iresp : IosResponse) (aenv : AndroidEnv) (areq : AppAnalysisRequest)
    (aresp : AndroidResponse)
    (hhits : ∀ (name : String) (n : Nat) (l : List SearchHit),
      aenv.gpsSearch name n = .ok l → l.length ≤ n) :
    (analyze_ios_app ienv ireq = .ok iresp → iresp.similar_apps.length ≤ 10) ∧
    (analyze_app aenv areq = .ok aresp → aresp.similar_apps.length ≤ 10) := by
  constructor
  · intro h
    obtain ⟨tid, _, hsim⟩ := analyze_ios_app_ok h
    rw [hsim]
    exact search_similar_apps_length_le ienv.fetch ireq.ios_app_name tid
  · intro h
    unfold analyze_app at h
    cases hx : extract_package_name areq.url with
    | error e => rw [hx] at h; exact absurd h (by simp)
    | ok pkg =>
      simp only [hx] at h
      cases ht : aenv.gpsApp pkg with
      | error m => simp only [ht] at h; exact absurd h (by simp)
      | ok target =>
        simp only [ht] at h
        cases hsr : aenv.gpsSearch areq.android_app_name 10 with
        | error m => simp only [hsr] at h; exact absurd h (by simp)
        | ok hits =>
          simp only [hsr, Except.ok.injEq] at h
          rw [← h]
          refine le_trans (foldl_detail_length_le aenv.gpsApp hits []) ?_
          simpa using hhits areq.android_app_name 10 hits hsr

/-- C5 witness: the bound applied at concrete environments for both endpoints. -/
theorem C5_witness :
    sampleIosResp.similar_apps.length ≤ 10 ∧
    sampleAndroidResp.similar_apps.length ≤ 10 := by
  have hhits : ∀ (name : String) (n : Nat) (l : List SearchHit),
      sampleAndroidEnv.gpsSearch name n = .ok l → l.length ≤ n := by
    intro name n l h
    injection h with h
    rw [← h]
    exact Nat.zero_le n
  exact ⟨(C5_similar_le_ten sampleIosEnv sampleIosReq sampleIosResp sampleAndroidEnv
      sampleAndroidReq sampleAndroidResp hhits).1 rfl,
    (C5_similar_le_ten sampleIosEnv sampleIosReq sampleIosResp sampleAndroidEnv
      sampleAndroidReq sampleAndroidResp hhits).2 rfl⟩

/-! ### C6: no excluded identifier, no duplicates -/

/-- C6: in every successful `/analyze-ios-app` response, no similar-app entry carries the
excluded target identifier extracted from the request URL, and no two entries share an
`appId`. -/
theorem C6_excluded_and_nodup (env : IosEnv) (req : AppStoreAnalysisRequest)
    (resp : IosResponse) (tid : String)
    (hx : extract_app_id req.url = .ok tid)
    (h : analyze_ios_app env req = .ok resp) :
    (∀ a ∈ resp.similar_apps, a.appId ≠ tid) ∧
    (resp.similar_apps.map (fun a => a.appId)).Nodup := by
  obtain ⟨tid2, hx2, hsim⟩ := analyze_ios_app_ok h
  rw [hx] at hx2
  injection hx2 with hx2
  rw [← hx2] at hsim
  rw [hsim]
  obtain ⟨s2, hinv⟩ := search_similar_apps_inv env.fetch req.ios_app_name tid
  exact ⟨hinv.2.2.1, hinv.2.1⟩

/-- C6 witness: the exclusion/deduplication facts at a concrete environment whose search
returns a candidate. -/
theorem C6_witness :
    (∀ a ∈ sampleIosResp.similar_apps, a.appId ≠ "298867247") ∧
    (sampleIosResp.similar_apps.map (fun a => a.appId)).Nodup :=
  C6_excluded_and_nodup sampleIosEnv sampleIosReq sampleIosResp "298867247" rfl rfl

/-! ### C7: the keyword relevance filter -/

/-- C7: every similar-app entry of a successful `/analyze-ios-app` response has at least one
of the fixed keywords {wallet, payment, bank, money, transfer, financial} as a substring of
its lowercased title or lowercased description (case-insensitive occurrence). -/
theorem C7_keyword_filter (env : IosEnv) (req : AppStoreAnalysisRequest)
    (resp : IosResponse) (h : analyze_ios_app env req = .ok resp) :
    ∀ a ∈ resp.similar_apps, ∃ kw ∈ keywords,
      pyInStr kw (pyLower a.title) = true ∨ pyInStr kw (pyLower a.description) = true := by
  obtain ⟨tid, _, hsim⟩ := analyze_ios_app_ok h
  rw [hsim]
  obtain ⟨s2, hinv⟩ := search_similar_apps_inv env.fetch req.ios_app_name tid
  exact hinv.2.2.2

/-- C7 witness: the keyword property at the concrete candidate returned in
`sampleIosResp`. -/
theorem C7_witness :
    ∃ kw ∈ keywords,
      pyInStr kw (pyLower (mkAppData "7" walletApp).title) = true ∨
      pyInStr kw (pyLower (mkAppData "7" walletApp).description) = true :=
  C7_keyword_filter sampleIosEnv sampleIosReq sampleIosResp rfl (mkAppData "7" walletApp)
    (List.mem_singleton.mpr rfl)

/-! ### C8: review capping and review-fetch failure -/

/-- C8: in the iOS flow the retained review list is the first 10 reviews returned by the
review scraper, and if the review fetch fails the response still succeeds with
`target_app.reviews = []` (given the scraper object construction succeeded). -/
theorem C8_review_policy (env : IosEnv) (req : AppStoreAnalysisRequest) (tid m : String)
    (rs : List Review)
    (hx : extract_app_id req.url = .ok tid) (hs : env.scraperInit = .ok ()) :
    (env.reviewFetch = .error m →
      ∃ resp, analyze_ios_app env req = .ok resp ∧ resp.target_app.reviews = []) ∧
    (env.reviewFetch = .ok rs →
      ∃ resp, analyze_ios_app env req = .ok resp ∧ resp.target_app.reviews = rs.take 10 ∧
        resp.target_app.reviews.length ≤ 10) := by
  constructor
  · intro hr
    unfold analyze_ios_app
    rw [hx, hs, hr]
    exact ⟨_, rfl, rfl⟩
  · intro hr
    unfold analyze_ios_app
    rw [hx, hs, hr]
    exact ⟨_, rfl, rfl, by simp⟩

/-- C8 witness: a failing review fetch yields an empty review list, and a twelve-review fetch
is capped to the first ten. -/
theorem C8_witness :
    (∃ resp, analyze_ios_app reviewFailEnv sampleIosReq = .ok resp ∧
      resp.target_app.reviews = []) ∧
    (∃ resp, analyze_ios_app reviewRichEnv sampleIosReq = .ok resp ∧
      resp.target_app.reviews = manyReviews.take 10 ∧
      resp.target_app.reviews.length ≤ 10) :=
  ⟨(C8_review_policy reviewFailEnv sampleIosReq "298867247" "too many requests" [] rfl
      rfl).1 rfl,
   (C8_review_policy reviewRichEnv sampleIosReq "298867247" "unused" manyReviews rfl
      rfl).2 rfl⟩

/-! ### C9: title fallback on storefront fetch failure -/

/-- C9: if the storefront page fetch fails entirely (so `get_app_store_data` returns the
empty record), the response still succeeds — no exception propagates from that step — and
`target_app.title` is the caller-supplied `ios_app_name`. -/
theorem C9_title_fallback (env : IosEnv) (req : AppStoreAnalysisRequest) (tid msg : String)
    (hx : extract_app_id req.url = .ok tid) (hs : env.scraperInit = .ok ())
    (hp : env.page = .failure msg) :
    ∃ resp, analyze_ios_app env req = .ok resp ∧
      resp.target_app.title = req.ios_app_name := by
  unfold analyze_ios_app
  rw [hx, hs, hp]
  exact ⟨_, rfl, rfl⟩

/-- C9 witness: the fallback at a concrete request. -/
theorem C9_witness :
    ∃ resp, analyze_ios_app sampleIosEnv sampleIosReq = .ok resp ∧
      resp.target_app.title = sampleIosReq.ios_app_name :=
  C9_title_fallback sampleIosEnv sampleIosReq "298867247" "connection reset" rfl rfl rfl

/-! ### C10: a present-but-empty title shadows the fallback -/

/-- C10: if the storefront page fetch and parse succeed but the page has no `h1` element,
`target_app.title` is the empty string — not the caller-supplied name — because the
present-but-empty `title` key shadows the `dict.get` default. -/
theorem C10_shadowed_default (env : IosEnv) (req : AppStoreAnalysisRequest) (tid : String)
    (h2 sd wr pr : Option String)
    (hx : extract_app_id req.url = .ok tid) (hs : env.scraperInit = .ok ())
    (hp : env.page = .page none h2 sd wr pr) :
    ∃ resp, analyze_ios_app env req = .ok resp ∧ resp.target_app.title = "" ∧
      (req.ios_app_name ≠ "" → resp.target_app.title ≠ req.ios_app_name) := by
  unfold analyze_ios_app
  rw [hx, hs, hp]
  exact ⟨_, rfl, rfl, fun hname hcontra => hname hcontra.symm⟩

/-- C10 witness: the shadowing at a concrete page lacking its `h1`. -/
theorem C10_witness :
    ∃ resp, analyze_ios_app missingH1Env sampleIosReq = .ok resp ∧
      resp.target_app.title = "" ∧
      (sampleIosReq.ios_app_name ≠ "" →
        resp.target_app.title ≠ sampleIosReq.ios_app_name) :=
  C10_shadowed_default missingH1Env sampleIosReq "298867247" (some "Acme Inc")
    (some "a description") none none rfl rfl rfl

end AppAnalyzer
